import Mathlib

/-!
Shallow embedding of the interactive core of `src/n8n-widget-bot.js`:
the 8-direction resize controller (`ResizeManager.handleResize`), file
validation (`Utils.validateFile`), file selection
(`FloatingChatWidget._handleFileSelect`), the submission pipeline
(`FloatingChatWidget._handleFormSubmit`) and reply extraction
(`ApiManager.extractReply`).

Pixel coordinates and sizes are modelled as `Int`.  JavaScript strings are
modelled as Lean `String`; the JS string operations the source uses
(`toLowerCase`, `endsWith`, `startsWith`, `slice`, `split`, `trim`, `||`)
are defined explicitly over the underlying character list, restricted to
the ASCII behaviour the widget exercises.
-/

/-- Configuration fields of `DEFAULT_CONFIG` that the resize controller reads:
`minWidth`, `maxWidth`, `minHeight`, `maxHeight` and `position`
(`"bottom-left"` or `"bottom-right"`). -/
structure ResizeConfig where
  minWidth : Int
  maxWidth : Int
  minHeight : Int
  maxHeight : Int
  position : String
deriving DecidableEq

/-- The `ResizeManager` state recorded by `startResize` (lines 741-758).
`handleResize` only reads these fields and never writes them, so within one
resize session they are constant and modelled as an immutable value. -/
structure ResizeSession where
  direction : String
  startX : Int
  startY : Int
  startWidth : Int
  startHeight : Int
  startLeft : Int
  startRight : Int
deriving DecidableEq

/-- The widget's applied style geometry: `style.width`, `style.height`,
`style.left`, `style.right`.  `handleResize` writes width, height and exactly
one of left/right; the other keeps its current value. -/
structure PanelGeometry where
  width : Int
  height : Int
  left : Int
  right : Int
deriving DecidableEq

/-- The local variables `newWidth`, `newHeight`, `newLeft`, `newRight` of
`handleResize` after the `switch (this.resizeDirection)` block. -/
structure ResizeVars where
  newWidth : Int
  newHeight : Int
  newLeft : Int
  newRight : Int
deriving DecidableEq

/-- The `switch (this.resizeDirection)` of `handleResize` (lines 778-813).
Each case starts from the values initialised at lines 772-775
(`startWidth`, `startHeight`, `startLeft`, `startRight`); the default case
leaves them all unchanged. -/
def resizeSwitch (s : ResizeSession) (deltaX deltaY : Int) : ResizeVars :=
  if s.direction = "nw" then
    ⟨s.startWidth - deltaX, s.startHeight - deltaY, s.startLeft + deltaX, s.startRight⟩
  else if s.direction = "n" then
    ⟨s.startWidth, s.startHeight - deltaY, s.startLeft, s.startRight⟩
  else if s.direction = "ne" then
    ⟨s.startWidth + deltaX, s.startHeight - deltaY, s.startLeft, s.startRight - deltaX⟩
  else if s.direction = "e" then
    ⟨s.startWidth + deltaX, s.startHeight, s.startLeft, s.startRight - deltaX⟩
  else if s.direction = "se" then
    ⟨s.startWidth + deltaX, s.startHeight + deltaY, s.startLeft, s.startRight - deltaX⟩
  else if s.direction = "s" then
    ⟨s.startWidth, s.startHeight + deltaY, s.startLeft, s.startRight⟩
  else if s.direction = "sw" then
    ⟨s.startWidth - deltaX, s.startHeight + deltaY, s.startLeft + deltaX, s.startRight⟩
  else if s.direction = "w" then
    ⟨s.startWidth - deltaX, s.startHeight, s.startLeft + deltaX, s.startRight⟩
  else
    ⟨s.startWidth, s.startHeight, s.startLeft, s.startRight⟩

/-- `ResizeManager.handleResize` (lines 766-830) on a pointer-move to
`(clientX, clientY)`: compute deltas from the session start pointer, apply
the per-direction switch, clamp width and height with
`Math.max(min, Math.min(max, v))`, and write width, height and the single
horizontal offset selected by `config.position === 'bottom-left' ? 'left' : 'right'`
back onto the widget's style `g`. -/
def handleResize (config : ResizeConfig) (s : ResizeSession)
    (clientX clientY : Int) (g : PanelGeometry) : PanelGeometry :=
  let deltaX := clientX - s.startX
  let deltaY := clientY - s.startY
  let v := resizeSwitch s deltaX deltaY
  let newWidth := max config.minWidth (min config.maxWidth v.newWidth)
  let newHeight := max config.minHeight (min config.maxHeight v.newHeight)
  if config.position = "bottom-left" then
    { width := newWidth, height := newHeight, left := v.newLeft, right := g.right }
  else
    { width := newWidth, height := newHeight, left := g.left, right := v.newRight }

/-- A sequence of `mousemove` events inside one resize session: each event
replaces the widget geometry with the result of `handleResize` at that
pointer position. -/
def applyMoves (config : ResizeConfig) (s : ResizeSession) (g : PanelGeometry) :
    List (Int × Int) → PanelGeometry
  | [] => g
  | m :: ms => applyMoves config s (handleResize config s m.1 m.2 g) ms

/-- Modelled from the spec: the width component of the direction-to-effect
table of §4.1 (`e`/`ne`/`se`: `width += deltaX`; `w`/`nw`/`sw`:
`width -= deltaX`). -/
def specWidthDelta (d : String) (dx : Int) : Int :=
  if d = "e" ∨ d = "ne" ∨ d = "se" then dx
  else if d = "w" ∨ d = "nw" ∨ d = "sw" then -dx
  else 0

/-- Modelled from the spec: the height component of the direction-to-effect
table of §4.1 (`n`/`ne`/`nw`: `height -= deltaY`; `s`/`se`/`sw`:
`height += deltaY`). -/
def specHeightDelta (d : String) (dy : Int) : Int :=
  if d = "n" ∨ d = "ne" ∨ d = "nw" then -dy
  else if d = "s" ∨ d = "se" ∨ d = "sw" then dy
  else 0

/-- Modelled from the spec: the left-offset component of the table of §4.1
(`w`/`nw`/`sw`: `left-offset += deltaX`). -/
def specLeftDelta (d : String) (dx : Int) : Int :=
  if d = "w" ∨ d = "nw" ∨ d = "sw" then dx else 0

/-- Modelled from the spec: the right-offset component of the table of §4.1
(`e`/`ne`/`se`: `right-offset -= deltaX`). -/
def specRightDelta (d : String) (dx : Int) : Int :=
  if d = "e" ∨ d = "ne" ∨ d = "se" then -dx else 0

/-- Modelled from the spec: claim C1's geometry rule — per-direction deltas,
width and height clamped to the configured bounds, and only the single
horizontal offset matching the configured anchor applied (left for
`bottom-left`, right for `bottom-right`); the other offset keeps its
current value. -/
def resizeRuleSpec (config : ResizeConfig) (s : ResizeSession)
    (clientX clientY : Int) (g : PanelGeometry) : PanelGeometry :=
  let dx := clientX - s.startX
  let dy := clientY - s.startY
  let w := max config.minWidth (min config.maxWidth (s.startWidth + specWidthDelta s.direction dx))
  let h := max config.minHeight (min config.maxHeight (s.startHeight + specHeightDelta s.direction dy))
  if config.position = "bottom-left" then
    { width := w, height := h, left := s.startLeft + specLeftDelta s.direction dx, right := g.right }
  else
    { width := w, height := h, left := g.left, right := s.startRight + specRightDelta s.direction dx }

/-- JS `String.prototype.toLowerCase` restricted to ASCII: lowercase every
character of the string. -/
def jsToLower (s : String) : String := ⟨s.data.map Char.toLower⟩

/-- JS `String.prototype.startsWith`. -/
def jsStartsWith (s p : String) : Bool := p.data.isPrefixOf s.data

/-- JS `String.prototype.endsWith`. -/
def jsEndsWith (s p : String) : Bool := p.data.isSuffixOf s.data

/-- JS `String.prototype.slice(0, -n)`: everything but the final `n`
characters (the empty string when the string is shorter than `n`). -/
def jsSliceDropLast (s : String) (n : Nat) : String := ⟨s.data.take (s.data.length - n)⟩

/-- JS `String.prototype.split` with a one-character separator, on the
character list.  Like JS `split`, it never returns an empty array:
`"".split('.')` is `[""]`, `"a.".split('.')` is `["a", ""]`. -/
def splitChar (sep : Char) : List Char → List (List Char)
  | [] => [[]]
  | c :: cs =>
    match splitChar sep cs with
    | [] => [[]]
    | h :: t => if c = sep then [] :: h :: t else (c :: h) :: t

/-- JS `a || b` on strings: the empty string is the only falsy string. -/
def jsOr (a b : String) : String := if a = "" then b else a

/-- JS `String.prototype.trim` restricted to ASCII whitespace. -/
def jsTrim (s : String) : String :=
  ⟨((s.data.dropWhile Char.isWhitespace).reverse.dropWhile Char.isWhitespace).reverse⟩

/-- A selected `File` as the widget reads it: `name`, MIME `type` and
`size` in bytes. -/
structure JsFile where
  name : String
  type : String
  size : Int
deriving DecidableEq

/-- The configuration fields read by `Utils.validateFile`:
`maxFileSize` and `allowedFileTypes`. -/
structure FileConfig where
  maxFileSize : Int
  allowedFileTypes : List String
deriving DecidableEq

/-- One iteration of the `for (const allowedType of config.allowedFileTypes)`
loop of `Utils.validateFile` (lines 168-187): extension patterns are matched
by `fileName.endsWith(allowedType)` on the already-lowercased file name,
`/*` patterns by `fileType.startsWith(allowedType.slice(0, -2))`, anything
else by exact MIME equality. -/
def isAllowedType (fileType fileName : String) (allowedType : String) : Bool :=
  if jsStartsWith allowedType "." then jsEndsWith fileName allowedType
  else if jsEndsWith allowedType "/*" then jsStartsWith fileType (jsSliceDropLast allowedType 2)
  else fileType == allowedType

/-- `Utils.validateFile` (lines 154-197) reduced to its accept/reject verdict:
reject when `file.size > config.maxFileSize`, otherwise accept exactly when
some pattern of `allowedFileTypes` matches `file.type` and the lowercased
`file.name`. -/
def validateFile (file : JsFile) (config : FileConfig) : Bool :=
  if file.size > config.maxFileSize then false
  else config.allowedFileTypes.any (isAllowedType file.type (jsToLower file.name))

/-- Modelled from the spec: claim C3's pattern rule, taken literally — a
pattern starting with `.` matches by case-insensitive suffix (both sides
case-folded), a pattern ending in `/*` matches any MIME type starting with
the part before the `*` (the pattern minus its final character), any other
pattern matches by exact MIME equality. -/
def claimPatternMatches (fileType fileName pat : String) : Bool :=
  if jsStartsWith pat "." then jsEndsWith (jsToLower fileName) (jsToLower pat)
  else if jsEndsWith pat "/*" then jsStartsWith fileType (jsSliceDropLast pat 1)
  else fileType == pat

/-- Modelled from the spec: claim C3's acceptance predicate — size within
`maxFileSize` and at least one pattern matches per `claimPatternMatches`. -/
def claimAccepts (file : JsFile) (config : FileConfig) : Bool :=
  decide (file.size ≤ config.maxFileSize) &&
    config.allowedFileTypes.any (claimPatternMatches file.type file.name)

/-- The amended pattern rule of claim C3: a pattern starting with `.` matches
when the lowercased file name ends with the pattern taken verbatim (so the
file name is matched case-insensitively, but an uppercase pattern never
matches); a pattern ending in `/*` matches any MIME type starting with the
pattern minus its final two characters (so `image/*` also matches
`imagefoo/png`); any other pattern matches by exact MIME equality. -/
def amendedPatternMatches (fileType fileName pat : String) : Bool :=
  if jsStartsWith pat "." then jsEndsWith (jsToLower fileName) pat
  else if jsEndsWith pat "/*" then jsStartsWith fileType (jsSliceDropLast pat 2)
  else fileType == pat

/-- The amended acceptance predicate of claim C3. -/
def amendedAccepts (file : JsFile) (config : FileConfig) : Bool :=
  decide (file.size ≤ config.maxFileSize) &&
    config.allowedFileTypes.any (amendedPatternMatches file.type file.name)

/-- The observable outcome of `_handleFileSelect`: the new pending
attachment list `this._attachedFiles`, the error notices shown (one
`_showError` call per rejected file, abstracted to the offending file's
name), and whether the file-input control was reset
(`e.target.value = ''`). -/
structure SelectResult where
  attached : List JsFile
  errors : List String
  inputReset : Bool
deriving DecidableEq

/-- One iteration of the `for (const file of files)` loop of
`_handleFileSelect` (lines 1066-1073): a file failing `Utils.validateFile`
produces one error notice and is skipped, a valid file is pushed onto the
pending list. -/
def selectStep (config : FileConfig) (st : List JsFile × List String) (file : JsFile) :
    List JsFile × List String :=
  if validateFile file config then (st.1 ++ [file], st.2)
  else (st.1, st.2 ++ [file.name])

/-- `FloatingChatWidget._handleFileSelect` (lines 1058-1083): an empty
selection returns immediately (previous pending list kept); otherwise the
pending list is cleared and rebuilt from the new selection, and if no file
survives validation the file-input control is reset. -/
def handleFileSelect (config : FileConfig) (prev : List JsFile) (files : List JsFile) :
    SelectResult :=
  if files.length = 0 then { attached := prev, errors := [], inputReset := false }
  else
    let r := files.foldl (selectStep config) ([], [])
    if r.1.length = 0 then { attached := r.1, errors := r.2, inputReset := true }
    else { attached := r.1, errors := r.2, inputReset := false }

/-- A pending attachment at submission time.  `encoded` is the outcome of
the asynchronous `Utils.fileToBase64` read: `some data` when the read
resolves with the data-URI string, `none` when it rejects (the `await`
then throws into the surrounding `try`). -/
structure PendingFile where
  name : String
  type : String
  size : Int
  encoded : Option String
deriving DecidableEq

/-- One entry of the `files` array of the outgoing webhook payload
(lines 1173-1180). -/
structure PayloadFile where
  fileName : String
  fileSize : String
  fileExtension : String
  fileType : String
  mimeType : String
  data : String
deriving DecidableEq

/-- The `webhookData` object assembled at lines 1202-1207. -/
structure Payload where
  sessionId : String
  action : String
  chatInput : String
  files : List PayloadFile
deriving DecidableEq

/-- The widget state read and written by `_handleFormSubmit`:
the text input's value and the pending attachment list. -/
structure WidgetState where
  inputValue : String
  attachedFiles : List PendingFile
deriving DecidableEq

/-- The configuration fields read by `_handleFormSubmit`. -/
structure SubmitConfig where
  sessionId : String
  maxMessageLength : Int
deriving DecidableEq

/-- The observable outcome of one `_handleFormSubmit` call: no request
(empty text and no attachments), the message-too-long error, the single
`Failed to process files` pipeline error, or an outgoing request carrying
the assembled payload. -/
inductive SubmitResult where
  | noRequest
  | messageTooLong
  | encodingError
  | sent (payload : Payload)
deriving DecidableEq

/-- `Utils.validateMessageLength` (lines 117-119): `text && text.length <= maxLength`. -/
def validateMessageLength (text : String) (maxLength : Int) : Bool :=
  (text != "") && decide ((text.length : Int) ≤ maxLength)

/-- The body of the `for (const file of this._attachedFiles)` loop
(lines 1167-1180) for one file: on encoding success, derive `mimeType`
(`file.type || 'application/octet-stream'`), `fileExtension`
(`file.name.split('.').pop() || ''`) and `fileType`
(`mimeType.split('/')[0] || 'application'`) and build the payload entry;
on encoding failure there is no entry (the loop throws). -/
def processFile (file : PendingFile) : Option PayloadFile :=
  match file.encoded with
  | none => none
  | some base64Data =>
    let mimeType := jsOr file.type "application/octet-stream"
    let fileExtension := jsOr ⟨(splitChar '.' file.name.data).getLastD []⟩ ""
    let fileType := jsOr ⟨(splitChar '/' mimeType.data).headD []⟩ "application"
    some { fileName := file.name
           fileSize := toString file.size ++ " bytes"
           fileExtension := fileExtension
           fileType := fileType
           mimeType := mimeType
           data := base64Data }

/-- The whole encoding loop: files are processed sequentially in list order
and the first failure throws out of the loop, so the result is `none` as
soon as any file fails and the ordered list of entries otherwise. -/
def processFiles : List PendingFile → Option (List PayloadFile)
  | [] => some []
  | file :: rest =>
    match processFile file with
    | none => none
    | some pf =>
      match processFiles rest with
      | none => none
      | some pfs => some (pf :: pfs)

/-- `FloatingChatWidget._handleFormSubmit` (lines 1151-1215): trim the input;
return with no request when the text is empty and no files are attached;
reject an over-long text; encode the attached files, aborting the whole
submission (state untouched) when any encoding fails; otherwise clear the
input and the attachment list and send the assembled `webhookData`. -/
def handleFormSubmit (config : SubmitConfig) (st : WidgetState) :
    SubmitResult × WidgetState :=
  let text := jsTrim st.inputValue
  if text = "" ∧ st.attachedFiles.length = 0 then (SubmitResult.noRequest, st)
  else if text ≠ "" ∧ validateMessageLength text config.maxMessageLength = false then
    (SubmitResult.messageTooLong, st)
  else
    match (if 0 < st.attachedFiles.length then processFiles st.attachedFiles else some []) with
    | none => (SubmitResult.encodingError, st)
    | some processedFiles =>
      (SubmitResult.sent
        { sessionId := config.sessionId
          action := "sendMessage"
          chatInput := jsOr text ""
          files := processedFiles },
       { st with inputValue := "", attachedFiles := [] })

/-- The suffix of a character list after its last occurrence of `sep`
(the whole list when `sep` does not occur). -/
def afterLast (sep : Char) : List Char → List Char
  | [] => []
  | c :: cs =>
    if sep ∈ cs then afterLast sep cs
    else if c = sep then cs
    else c :: afterLast sep cs

/-- Modelled from the spec: claim C7's `fileExtension` rule taken literally —
the substring after the last `.` in the filename, and the empty string if
the filename contains no `.`. -/
def claimFileExtension (name : String) : String :=
  if '.' ∈ name.data then ⟨afterLast '.' name.data⟩ else ""

/-- Modelled from the spec: claim C7's `fileType` rule taken literally —
the portion of the file's MIME type before `/`, defaulting to
`application` only when the MIME type is empty. -/
def claimFileType (mime : String) : String :=
  if mime = "" then "application" else ⟨mime.data.takeWhile (fun c => c != '/')⟩

/-- The amended `fileExtension` rule of claim C7: the substring after the
last `.` in the filename, or the whole filename when it contains no `.`. -/
def amendedFileExtension (name : String) : String := ⟨afterLast '.' name.data⟩

/-- The amended `fileType` rule of claim C7: the portion of the MIME type
before the first `/`, with `application` substituted when that portion is
empty — in particular when the MIME type itself is empty. -/
def amendedFileType (mime : String) : String :=
  if mime = "" then "application"
  else if mime.data.takeWhile (fun c => c != '/') = [] then "application"
  else ⟨mime.data.takeWhile (fun c => c != '/')⟩

/-- A webhook response object, restricted to the three keys
`ApiManager.extractReply` inspects; a missing key is `none` and the values
are modelled as strings. -/
structure ResponseData where
  reply : Option String
  output : Option String
  message : Option String
deriving DecidableEq

/-- JS truthiness of a possibly-missing string property: a missing property
and the empty string are falsy. -/
def jsTruthy : Option String → Bool
  | none => false
  | some s => s != ""

/-- `ApiManager.extractReply` (lines 873-878): the guards are JS truthiness
tests (`data && data.reply` …), and a null/undefined body yields `''`. -/
def extractReply (data : Option ResponseData) : String :=
  match data with
  | none => ""
  | some d =>
    if jsTruthy d.reply then d.reply.getD ""
    else if jsTruthy d.output then d.output.getD ""
    else if jsTruthy d.message then d.message.getD ""
    else ""

/-- Modelled from the spec: claim C9 as stated — the value under `reply`
if that key is present, otherwise under `output`, otherwise under
`message`, otherwise the empty string. -/
def claimExtractReply (data : Option ResponseData) : String :=
  match data with
  | none => ""
  | some d =>
    match d.reply with
    | some s => s
    | none =>
      match d.output with
      | some s => s
      | none =>
        match d.message with
        | some s => s
        | none => ""

/-- The first value in the list that is present and non-empty, or `""`. -/
def firstTruthy : List (Option String) → String
  | [] => ""
  | o :: rest =>
    match o with
    | some s => if s = "" then firstTruthy rest else s
    | none => firstTruthy rest

/-- The amended rule of claim C9: the value under the first of `reply`,
`output`, `message` that is present with a non-empty value, otherwise the
empty string. -/
def amendedExtractReply (data : Option ResponseData) : String :=
  match data with
  | none => ""
  | some d => firstTruthy [d.reply, d.output, d.message]

/-- Claim C1: for every active resize session whose direction is one of the
eight handles and a configuration anchored bottom-left or bottom-right, a
pointer-move computes the new geometry exactly by that direction's rule,
clamps width and height, and applies only the single horizontal offset
matching the configured anchor. -/
theorem resize_direction_rule_c1 (config : ResizeConfig) (s : ResizeSession)
    (clientX clientY : Int) (g : PanelGeometry)
    (hd : s.direction = "n" ∨ s.direction = "s" ∨ s.direction = "e" ∨ s.direction = "w" ∨
      s.direction = "ne" ∨ s.direction = "nw" ∨ s.direction = "se" ∨ s.direction = "sw")
    (hp : config.position = "bottom-left" ∨ config.position = "bottom-right") :
    handleResize config s clientX clientY g = resizeRuleSpec config s clientX clientY g := by
  rcases hd with hd | hd | hd | hd | hd | hd | hd | hd <;>
    rcases hp with hp | hp <;>
      simp [handleResize, resizeSwitch, resizeRuleSpec, specWidthDelta, specHeightDelta,
        specLeftDelta, specRightDelta, hd, hp, PanelGeometry.mk.injEq] <;>
      omega

/-- Witness for C1 at a concrete `ne` drag on a bottom-right-anchored panel. -/
theorem resize_direction_rule_c1_witness :
    handleResize ⟨300, 600, 400, 800, "bottom-right"⟩ ⟨"ne", 100, 100, 350, 500, 40, 24⟩
        130 90 ⟨350, 500, 40, 24⟩ =
      resizeRuleSpec ⟨300, 600, 400, 800, "bottom-right"⟩ ⟨"ne", 100, 100, 350, 500, 40, 24⟩
        130 90 ⟨350, 500, 40, 24⟩ :=
  resize_direction_rule_c1 _ _ _ _ _ (by decide) (by decide)

/-- Claim C2: whenever `minWidth ≤ maxWidth` and `minHeight ≤ maxHeight`,
the width and height applied after any pointer-move — any session, any
direction string, any delta — lie within the configured bounds. -/
theorem resize_clamped_bounds_c2 (config : ResizeConfig) (s : ResizeSession)
    (clientX clientY : Int) (g : PanelGeometry)
    (hW : config.minWidth ≤ config.maxWidth) (hH : config.minHeight ≤ config.maxHeight) :
    config.minWidth ≤ (handleResize config s clientX clientY g).width ∧
    (handleResize config s clientX clientY g).width ≤ config.maxWidth ∧
    config.minHeight ≤ (handleResize config s clientX clientY g).height ∧
    (handleResize config s clientX clientY g).height ≤ config.maxHeight := by
  unfold handleResize
  split_ifs <;>
    exact ⟨le_max_left _ _, max_le hW (min_le_left _ _),
      le_max_left _ _, max_le hH (min_le_left _ _)⟩

/-- Witness for C2: a huge drag on a `se` handle stays within `[300, 600] × [400, 800]`. -/
theorem resize_clamped_bounds_c2_witness :
    (300 : Int) ≤ (handleResize ⟨300, 600, 400, 800, "bottom-right"⟩
        ⟨"se", 0, 0, 350, 500, 40, 24⟩ 100000 100000 ⟨350, 500, 40, 24⟩).width ∧
    (handleResize ⟨300, 600, 400, 800, "bottom-right"⟩
        ⟨"se", 0, 0, 350, 500, 40, 24⟩ 100000 100000 ⟨350, 500, 40, 24⟩).width ≤ 600 ∧
    (400 : Int) ≤ (handleResize ⟨300, 600, 400, 800, "bottom-right"⟩
        ⟨"se", 0, 0, 350, 500, 40, 24⟩ 100000 100000 ⟨350, 500, 40, 24⟩).height ∧
    (handleResize ⟨300, 600, 400, 800, "bottom-right"⟩
        ⟨"se", 0, 0, 350, 500, 40, 24⟩ 100000 100000 ⟨350, 500, 40, 24⟩).height ≤ 800 :=
  resize_clamped_bounds_c2 _ _ _ _ _ (by decide) (by decide)

/-- Applying a second pointer-move overwrites the effect of the first:
`handleResize` reads the current geometry only through the horizontal offset
it does not write, and it preserves that offset. -/
theorem handleResize_overwrite (config : ResizeConfig) (s : ResizeSession)
    (x y x2 y2 : Int) (g : PanelGeometry) :
    handleResize config s x y (handleResize config s x2 y2 g) =
      handleResize config s x y g := by
  unfold handleResize
  split_ifs <;> rfl

/-- A nonempty move sequence produces the geometry of its final move alone. -/
theorem applyMoves_eq_last_move (config : ResizeConfig) (s : ResizeSession) :
    ∀ (ms : List (Int × Int)) (m : Int × Int) (g : PanelGeometry),
      applyMoves config s g (m :: ms) =
        handleResize config s (ms.getLastD m).1 (ms.getLastD m).2 g := by
  intro ms
  induction ms with
  | nil => intro m g; rfl
  | cons m2 ms2 ih =>
    intro m g
    calc applyMoves config s g (m :: m2 :: ms2)
        = applyMoves config s (handleResize config s m.1 m.2 g) (m2 :: ms2) := rfl
      _ = handleResize config s (ms2.getLastD m2).1 (ms2.getLastD m2).2
            (handleResize config s m.1 m.2 g) := ih m2 _
      _ = handleResize config s (ms2.getLastD m2).1 (ms2.getLastD m2).2 g :=
            handleResize_overwrite ..
      _ = handleResize config s ((m2 :: ms2).getLastD m).1 ((m2 :: ms2).getLastD m).2 g := by
            rw [List.getLastD_cons]

/-- Claim C10: within a single resize session the geometry produced by a
pointer-move depends only on the session-start state and the current pointer
position — two move sequences ending at the same pointer give equal
geometry. -/
theorem resize_path_independent_c10 (config : ResizeConfig) (s : ResizeSession)
    (g : PanelGeometry) (ms1 ms2 : List (Int × Int))
    (h1 : ms1 ≠ []) (h2 : ms2 ≠ [])
    (hlast : ms1.getLastD (0, 0) = ms2.getLastD (0, 0)) :
    applyMoves config s g ms1 = applyMoves config s g ms2 := by
  match ms1, ms2 with
  | [], _ => exact absurd rfl h1
  | _, [] => exact absurd rfl h2
  | a :: as, b :: bs =>
    rw [List.getLastD_cons, List.getLastD_cons] at hlast
    rw [applyMoves_eq_last_move, applyMoves_eq_last_move, hlast]

/-- Witness for C10: a drag that overshoots far out of bounds and comes back
produces the same geometry as a direct drag to the final pointer. -/
theorem resize_path_independent_c10_witness :
    applyMoves ⟨300, 600, 400, 800, "bottom-right"⟩ ⟨"se", 0, 0, 350, 500, 40, 24⟩
        ⟨350, 500, 40, 24⟩ [(100000, 100000), (-100000, -100000), (30, 20)] =
      applyMoves ⟨300, 600, 400, 800, "bottom-right"⟩ ⟨"se", 0, 0, 350, 500, 40, 24⟩
        ⟨350, 500, 40, 24⟩ [(30, 20)] :=
  resize_path_independent_c10 _ _ _ _ _ (by decide) (by decide) rfl

/-- Counterexample to claim C3 as stated.  First input: pattern `.PDF` with
file `report.pdf` — a case-insensitive suffix match accepts it, but the code
only lowercases the file name, never the pattern, and rejects.  Second
input: pattern `image/*` with MIME type `imagefoo/png` — the part before the
`*` is `image/`, which is not a prefix of `imagefoo/png`, yet the code
compares against `slice(0, -2)` = `image` and accepts. -/
theorem validate_file_counterexample_c3 :
    validateFile ⟨"report.pdf", "application/pdf", 1⟩ ⟨10, [".PDF"]⟩ = false ∧
    claimAccepts ⟨"report.pdf", "application/pdf", 1⟩ ⟨10, [".PDF"]⟩ = true ∧
    validateFile ⟨"x", "imagefoo/png", 1⟩ ⟨10, ["image/*"]⟩ = true ∧
    claimAccepts ⟨"x", "imagefoo/png", 1⟩ ⟨10, ["image/*"]⟩ = false := by
  decide

/-- Claim C3 as amended: file validation accepts a file exactly when its
size does not exceed `maxFileSize` and at least one pattern matches, where a
`.` pattern matches when the lowercased file name ends with the pattern
verbatim, a `/*` pattern matches any MIME type starting with the pattern
minus its final two characters, and any other pattern matches by exact MIME
equality. -/
theorem validate_file_amended_c3 (file : JsFile) (config : FileConfig) :
    validateFile file config = amendedAccepts file config := by
  unfold validateFile amendedAccepts
  rcases lt_or_le config.maxFileSize file.size with h | h
  · simp [h, not_le.mpr h]
  · simp [h, not_lt.mpr h]
    rfl

/-- The selection loop accumulates exactly the valid files, in order, and
one error notice per invalid file, in order. -/
theorem selectStep_foldl (config : FileConfig) :
    ∀ (files : List JsFile) (acc : List JsFile) (errs : List String),
      files.foldl (selectStep config) (acc, errs) =
        (acc ++ files.filter (fun f => validateFile f config),
         errs ++ (files.filter (fun f => !validateFile f config)).map JsFile.name) := by
  intro files
  induction files with
  | nil => intro acc errs; simp
  | cons f fs ih =>
    intro acc errs
    by_cases h : validateFile f config
    · simp [selectStep, h, ih, List.filter_cons]
    · simp only [Bool.not_eq_true] at h
      simp [selectStep, h, ih, List.filter_cons]

/-- Claim C4: for every non-empty selection, each invalid file is excluded
and produces exactly one individual error notice, every valid file is still
added, the resulting pending list is exactly the valid files of the new
selection in selection order (independent of the previous pending set), and
the file-input control is reset exactly when no file survives. -/
theorem file_select_c4 (config : FileConfig) (prev files : List JsFile)
    (h : files ≠ []) :
    (handleFileSelect config prev files).attached =
        files.filter (fun f => validateFile f config) ∧
    (handleFileSelect config prev files).errors =
        (files.filter (fun f => !validateFile f config)).map JsFile.name ∧
    ((handleFileSelect config prev files).inputReset = true ↔
        files.filter (fun f => validateFile f config) = []) := by
  unfold handleFileSelect
  rw [if_neg (by simpa using h), selectStep_foldl]
  simp only [List.nil_append]
  split_ifs with hlen
  · simp_all [List.length_eq_zero]
  · simp_all [List.length_eq_zero]

/-- Witness for C4: a selection with one oversized file, one valid image and
one file of a disallowed type keeps exactly the image and shows two
notices. -/
theorem file_select_c4_witness :
    (handleFileSelect ⟨10, ["image/*"]⟩ [⟨"old.png", "image/png", 1⟩]
        [⟨"big.png", "image/png", 11⟩, ⟨"ok.png", "image/png", 2⟩,
         ⟨"doc.pdf", "application/pdf", 1⟩]).attached =
      [⟨"big.png", "image/png", 11⟩, ⟨"ok.png", "image/png", 2⟩,
       ⟨"doc.pdf", "application/pdf", 1⟩].filter
        (fun f => validateFile f ⟨10, ["image/*"]⟩) ∧
    (handleFileSelect ⟨10, ["image/*"]⟩ [⟨"old.png", "image/png", 1⟩]
        [⟨"big.png", "image/png", 11⟩, ⟨"ok.png", "image/png", 2⟩,
         ⟨"doc.pdf", "application/pdf", 1⟩]).errors =
      ([⟨"big.png", "image/png", 11⟩, ⟨"ok.png", "image/png", 2⟩,
        ⟨"doc.pdf", "application/pdf", 1⟩].filter
        (fun f => !validateFile f ⟨10, ["image/*"]⟩)).map JsFile.name ∧
    ((handleFileSelect ⟨10, ["image/*"]⟩ [⟨"old.png", "image/png", 1⟩]
        [⟨"big.png", "image/png", 11⟩, ⟨"ok.png", "image/png", 2⟩,
         ⟨"doc.pdf", "application/pdf", 1⟩]).inputReset = true ↔
      [⟨"big.png", "image/png", 11⟩, ⟨"ok.png", "image/png", 2⟩,
       ⟨"doc.pdf", "application/pdf", 1⟩].filter
        (fun f => validateFile f ⟨10, ["image/*"]⟩) = []) :=
  file_select_c4 _ _ _ (by decide)

/-- `a || ''` is the identity on JS strings. -/
theorem jsOr_empty_right (a : String) : jsOr a "" = a := by
  unfold jsOr
  split_ifs with h
  · exact h.symm
  · rfl

/-- The encoding loop fails as a whole as soon as any attached file's
encoding fails. -/
theorem processFiles_eq_none_of_failure :
    ∀ (l : List PendingFile) (f : PendingFile), f ∈ l → f.encoded = none →
      processFiles l = none := by
  intro l
  induction l with
  | nil => intro f hf _; cases hf
  | cons a as ih =>
    intro f hf he
    rcases List.mem_cons.mp hf with rfl | hmem
    · simp [processFiles, processFile, he]
    · cases h : processFile a <;> simp [processFiles, h, ih f hmem he]

/-- A successful encoding loop yields exactly one payload entry per pending
file, in the attachment list's order. -/
theorem processFiles_forall2 :
    ∀ (l : List PendingFile) (pfs : List PayloadFile), processFiles l = some pfs →
      List.Forall₂ (fun pf f => processFile f = some pf) pfs l := by
  intro l
  induction l with
  | nil =>
    intro pfs h
    simp only [processFiles, Option.some.injEq] at h
    subst h
    exact List.Forall₂.nil
  | cons a as ih =>
    intro pfs h
    simp only [processFiles] at h
    cases hpa : processFile a with
    | none => rw [hpa] at h; exact absurd h (by simp)
    | some pf =>
      rw [hpa] at h
      cases hps : processFiles as with
      | none => rw [hps] at h; exact absurd h (by simp)
      | some rest =>
        rw [hps] at h
        simp only [Option.some.injEq] at h
        subst h
        exact List.Forall₂.cons hpa (ih rest hps)

/-- Claim C5: if encoding fails for any pending file (and the submission is
not stopped earlier by the length check), the whole submission is aborted
with the single pipeline-level error — no request is sent and the state,
including the pending attachment list, is left untouched. -/
theorem encoding_failure_aborts_c5 (config : SubmitConfig) (st : WidgetState)
    (hfail : ∃ f ∈ st.attachedFiles, f.encoded = none)
    (hlen : jsTrim st.inputValue = "" ∨
      validateMessageLength (jsTrim st.inputValue) config.maxMessageLength = true) :
    handleFormSubmit config st = (SubmitResult.encodingError, st) := by
  obtain ⟨f, hmem, he⟩ := hfail
  have hne : st.attachedFiles ≠ [] := by
    intro h0
    rw [h0] at hmem
    exact absurd hmem (List.not_mem_nil f)
  have hpos : 0 < st.attachedFiles.length := List.length_pos.mpr hne
  have h1 : ¬(jsTrim st.inputValue = "" ∧ st.attachedFiles.length = 0) := by
    intro hc
    exact Nat.pos_iff_ne_zero.mp hpos hc.2
  have h2 : ¬(jsTrim st.inputValue ≠ "" ∧
      validateMessageLength (jsTrim st.inputValue) config.maxMessageLength = false) := by
    intro hc
    rcases hlen with h | h
    · exact hc.1 h
    · rw [h] at hc
      exact absurd hc.2 (by decide)
  simp only [handleFormSubmit]
  rw [if_neg h1, if_neg h2, if_pos hpos,
    processFiles_eq_none_of_failure st.attachedFiles f hmem he]

/-- Witness for C5: two pending files, the second of which fails to encode;
the submission aborts with the single pipeline error and both files remain
pending. -/
theorem encoding_failure_aborts_c5_witness :
    handleFormSubmit ⟨"sess", 1000⟩
        ⟨"hi", [⟨"a.txt", "text/plain", 3, some "DATA"⟩, ⟨"b.txt", "text/plain", 4, none⟩]⟩ =
      (SubmitResult.encodingError,
        ⟨"hi", [⟨"a.txt", "text/plain", 3, some "DATA"⟩, ⟨"b.txt", "text/plain", 4, none⟩]⟩) :=
  encoding_failure_aborts_c5 _ _ (by decide) (by decide)

/-- Claim C6: every payload that is sent carries exactly `sessionId`, the
fixed tag `action = "sendMessage"`, `chatInput` equal to the trimmed user
text, and one `files` entry per pending attachment in the attachment list's
order (`List.Forall₂` pairs each entry with its attachment in order, so the
array is empty exactly when there are no attachments). -/
theorem payload_shape_c6 (config : SubmitConfig) (st : WidgetState) (p : Payload)
    (st2 : WidgetState) (h : handleFormSubmit config st = (SubmitResult.sent p, st2)) :
    p.sessionId = config.sessionId ∧ p.action = "sendMessage" ∧
    p.chatInput = jsTrim st.inputValue ∧
    List.Forall₂ (fun pf f => processFile f = some pf) p.files st.attachedFiles := by
  simp only [handleFormSubmit] at h
  by_cases hf : 0 < st.attachedFiles.length
  · rw [if_pos hf] at h
    split_ifs at h with h1 h2
    · exact absurd h (by simp)
    · exact absurd h (by simp)
    · rcases hm : processFiles st.attachedFiles with _ | pfs
      · rw [hm] at h
        exact absurd h (by simp)
      · rw [hm] at h
        injection h with hA hB
        injection hA with hP
        subst hP
        exact ⟨rfl, rfl, jsOr_empty_right _, processFiles_forall2 _ _ hm⟩
  · rw [if_neg hf] at h
    split_ifs at h with h1 h2
    · exact absurd h (by simp)
    · exact absurd h (by simp)
    · have hnil : st.attachedFiles = [] :=
        List.eq_nil_of_length_eq_zero (Nat.eq_zero_of_not_pos hf)
      injection h with hA hB
      injection hA with hP
      subst hP
      rw [hnil]
      exact ⟨rfl, rfl, jsOr_empty_right _, List.Forall₂.nil⟩

/-- Witness for C6: submitting the text `Hello` with no attachments sends
`{sessionId, action: "sendMessage", chatInput: "Hello", files: []}`. -/
theorem payload_shape_c6_witness :
    (Payload.mk "sess" "sendMessage" "Hello" []).sessionId = "sess" ∧
    (Payload.mk "sess" "sendMessage" "Hello" []).action = "sendMessage" ∧
    (Payload.mk "sess" "sendMessage" "Hello" []).chatInput = jsTrim "  Hello  " ∧
    List.Forall₂ (fun pf f => processFile f = some pf)
      (Payload.mk "sess" "sendMessage" "Hello" []).files [] :=
  payload_shape_c6 ⟨"sess", 1000⟩ ⟨"  Hello  ", []⟩ (Payload.mk "sess" "sendMessage" "Hello" [])
    ⟨"", []⟩ (by decide)

/-- Claim C8: submitting with empty trimmed text and no pending attachments
performs no outgoing request, and a payload is only ever sent when the
trimmed text is non-empty or the attachment list is non-empty. -/
theorem empty_submit_no_request_c8 :
    (∀ (config : SubmitConfig) (st : WidgetState),
      jsTrim st.inputValue = "" → st.attachedFiles = [] →
      handleFormSubmit config st = (SubmitResult.noRequest, st)) ∧
    (∀ (config : SubmitConfig) (st : WidgetState) (p : Payload) (st2 : WidgetState),
      handleFormSubmit config st = (SubmitResult.sent p, st2) →
      jsTrim st.inputValue ≠ "" ∨ st.attachedFiles ≠ []) := by
  constructor
  · intro config st h1 h2
    simp only [handleFormSubmit]
    rw [if_pos ⟨h1, by rw [h2]; rfl⟩]
  · intro config st p st2 h
    by_cases hq : jsTrim st.inputValue = "" ∧ st.attachedFiles.length = 0
    · simp only [handleFormSubmit] at h
      rw [if_pos hq] at h
      injection h with hA hB
      exact absurd hA (by simp)
    · rw [not_and_or] at hq
      rcases hq with hq | hq
      · exact Or.inl hq
      · right
        intro h0
        apply hq
        rw [h0]
        rfl

/-- Witness for C8: whitespace-only text with no attachment sends nothing,
and a concrete sent submission has non-empty text or files. -/
theorem empty_submit_no_request_c8_witness :
    handleFormSubmit ⟨"sess", 1000⟩ ⟨"   ", []⟩ = (SubmitResult.noRequest, ⟨"   ", []⟩) ∧
    (jsTrim "hi" ≠ "" ∨ ([] : List PendingFile) ≠ []) :=
  ⟨empty_submit_no_request_c8.1 ⟨"sess", 1000⟩ ⟨"   ", []⟩ (by decide) rfl,
   empty_submit_no_request_c8.2 ⟨"sess", 1000⟩ ⟨"hi", []⟩
     (Payload.mk "sess" "sendMessage" "hi" []) ⟨"", []⟩ (by decide)⟩

/-- Like JS `split`, `splitChar` never produces an empty array. -/
theorem splitChar_ne_nil (sep : Char) : ∀ l : List Char, splitChar sep l ≠ [] := by
  intro l
  cases l with
  | nil => simp [splitChar]
  | cons c cs =>
    simp only [splitChar]
    cases splitChar sep cs with
    | nil => simp
    | cons a t => by_cases hc : c = sep <;> simp [hc]

/-- The step equation of `splitChar` with the nested match rephrased through
`headD` and `tail`. -/
theorem splitChar_cons (sep c : Char) (cs : List Char) :
    splitChar sep (c :: cs) =
      if c = sep then [] :: splitChar sep cs
      else (c :: (splitChar sep cs).headD []) :: (splitChar sep cs).tail := by
  simp only [splitChar]
  cases h : splitChar sep cs with
  | nil => exact absurd h (splitChar_ne_nil sep cs)
  | cons a t => by_cases hc : c = sep <;> simp [hc]

/-- Splitting a list free of the separator yields the singleton array. -/
theorem splitChar_of_not_mem (sep : Char) :
    ∀ l : List Char, sep ∉ l → splitChar sep l = [l] := by
  intro l
  induction l with
  | nil => intro _; rfl
  | cons c cs ih =>
    intro h
    rw [List.mem_cons, not_or] at h
    simp only [splitChar, ih h.2]
    rw [if_neg (fun hc => h.1 hc.symm)]

/-- Splitting a list containing the separator yields at least two pieces. -/
theorem splitChar_length_of_mem (sep : Char) :
    ∀ l : List Char, sep ∈ l → 2 ≤ (splitChar sep l).length := by
  intro l
  induction l with
  | nil => intro h; cases h
  | cons c cs ih =>
    intro h
    rw [splitChar_cons]
    have h1 : splitChar sep cs ≠ [] := splitChar_ne_nil sep cs
    by_cases hc : c = sep
    · rw [if_pos hc]
      have h0 : 0 < (splitChar sep cs).length := List.length_pos.mpr h1
      simp only [List.length_cons]
      omega
    · rw [if_neg hc]
      rcases List.mem_cons.mp h with he | hm
      · exact absurd he.symm hc
      · have h2 := ih hm
        cases hs : splitChar sep cs with
        | nil => exact absurd hs h1
        | cons a t =>
          rw [hs] at h2
          simp only [hs, List.tail_cons, List.length_cons] at h2 ⊢
          omega

/-- `afterLast` on a list free of the separator is the whole list. -/
theorem afterLast_of_not_mem (sep : Char) :
    ∀ l : List Char, sep ∉ l → afterLast sep l = l := by
  intro l
  induction l with
  | nil => intro _; rfl
  | cons c cs ih =>
    intro h
    rw [List.mem_cons, not_or] at h
    simp only [afterLast]
    rw [if_neg h.2, if_neg (fun hc => h.1 hc.symm), ih h.2]

/-- The last piece of a JS split is the suffix after the last separator
(the whole list when the separator does not occur). -/
theorem splitChar_getLastD (sep : Char) :
    ∀ l : List Char, (splitChar sep l).getLastD [] = afterLast sep l := by
  intro l
  induction l with
  | nil => rfl
  | cons c cs ih =>
    rw [splitChar_cons]
    by_cases hc : c = sep
    · rw [if_pos hc]
      by_cases hmem : sep ∈ cs
      · cases hs : splitChar sep cs with
        | nil => exact absurd hs (splitChar_ne_nil sep cs)
        | cons a t =>
          rw [List.getLastD_cons, ← hs, ih]
          simp [afterLast, hmem]
      · rw [splitChar_of_not_mem sep cs hmem]
        simp [afterLast, hmem, hc, List.getLastD_cons]
    · rw [if_neg hc]
      by_cases hmem : sep ∈ cs
      · have h2 := splitChar_length_of_mem sep cs hmem
        cases hs : splitChar sep cs with
        | nil => exact absurd hs (splitChar_ne_nil sep cs)
        | cons a t =>
          rw [hs] at h2
          cases t with
          | nil => simp at h2
          | cons t0 ts =>
            simp only [hs, List.headD_cons, List.tail_cons]
            rw [List.getLastD_cons, List.getLastD_cons]
            have ihv := ih
            rw [hs, List.getLastD_cons, List.getLastD_cons] at ihv
            rw [ihv]
            simp [afterLast, hmem]
      · rw [splitChar_of_not_mem sep cs hmem]
        simp [afterLast, hmem, hc, afterLast_of_not_mem sep cs hmem, List.getLastD_cons]

/-- The first piece of a JS split is the maximal separator-free leading
segment. -/
theorem splitChar_headD (sep : Char) :
    ∀ l : List Char, (splitChar sep l).headD [] = l.takeWhile (fun c => c != sep) := by
  intro l
  induction l with
  | nil => rfl
  | cons c cs ih =>
    rw [splitChar_cons]
    by_cases hc : c = sep
    · rw [if_pos hc]
      simp [List.takeWhile_cons, hc]
    · rw [if_neg hc]
      have hq : (c != sep) = true := by simp [hc]
      rw [List.headD_cons, List.takeWhile_cons, if_pos hq, ih]

/-- A `String.mk` value is the empty string exactly when its character list
is empty. -/
theorem string_mk_eq_empty_iff (l : List Char) : ((⟨l⟩ : String) = "") ↔ l = [] := by
  constructor
  · intro h
    exact congrArg String.data h
  · intro h
    rw [h]

/-- Counterexample to claim C7 as stated.  A file named `noext` has no `.`,
so the claim requires `fileExtension = ""`, but `split('.').pop()` returns
the whole name `noext`.  A file with the (degenerate) MIME type `/x` is
non-empty, so the claim requires `fileType = ""` (the portion before `/`),
but `split('/')[0] || 'application'` yields `application`. -/
theorem payload_fields_counterexample_c7 :
    processFile ⟨"noext", "text/plain", 3, some "DATA"⟩ =
      some ⟨"noext", "3 bytes", "noext", "text", "text/plain", "DATA"⟩ ∧
    claimFileExtension "noext" = "" ∧
    processFile ⟨"a.txt", "/x", 3, some "DATA"⟩ =
      some ⟨"a.txt", "3 bytes", "txt", "application", "/x", "DATA"⟩ ∧
    claimFileType "/x" = "" := by
  decide

/-- Claim C7 as amended: for every pending file that encodes successfully,
the payload entry's `fileExtension` is the substring after the last `.` in
the filename — the whole filename when it contains no `.` — and its
`fileType` is the portion of the MIME type before the first `/`, with
`application` substituted when that portion is empty (in particular when
the MIME type is empty). -/
theorem payload_fields_amended_c7 (f : PendingFile) (pf : PayloadFile)
    (h : processFile f = some pf) :
    pf.fileExtension = amendedFileExtension f.name ∧
    pf.fileType = amendedFileType f.type := by
  cases he : f.encoded with
  | none => simp [processFile, he] at h
  | some b =>
    simp only [processFile, he, Option.some.injEq] at h
    subst h
    constructor
    · show jsOr ⟨(splitChar '.' f.name.data).getLastD []⟩ "" = amendedFileExtension f.name
      rw [jsOr_empty_right, splitChar_getLastD]
      rfl
    · show jsOr ⟨(splitChar '/' (jsOr f.type "application/octet-stream").data).headD []⟩
          "application" = amendedFileType f.type
      by_cases ht : f.type = ""
      · rw [ht]
        rfl
      · rw [show jsOr f.type "application/octet-stream" = f.type from if_neg ht,
          splitChar_headD]
        unfold amendedFileType
        rw [if_neg ht]
        by_cases hw : f.type.data.takeWhile (fun c => c != '/') = []
        · rw [if_pos hw, hw]
          unfold jsOr
          rw [if_pos rfl]
        · rw [if_neg hw]
          unfold jsOr
          rw [if_neg (fun hmk => hw ((string_mk_eq_empty_iff _).mp hmk))]

/-- Witness for the amended C7 at a concrete encoded file `a.txt` of MIME
type `text/plain`. -/
theorem payload_fields_amended_c7_witness :
    (PayloadFile.mk "a.txt" "3 bytes" "txt" "text" "text/plain" "DATA").fileExtension =
      amendedFileExtension "a.txt" ∧
    (PayloadFile.mk "a.txt" "3 bytes" "txt" "text" "text/plain" "DATA").fileType =
      amendedFileType "text/plain" :=
  payload_fields_amended_c7 ⟨"a.txt", "text/plain", 3, some "DATA"⟩
    (PayloadFile.mk "a.txt" "3 bytes" "txt" "text" "text/plain" "DATA") (by decide)

/-- Counterexample to claim C9 as stated.  For the response object with
`reply` present but equal to the empty string and `output` present as
`"hi"`, the claim requires the extracted reply to be the value under
`reply`, i.e. `""`; the code's JS truthiness test skips the falsy `""` and
returns `"hi"`. -/
theorem extract_reply_counterexample_c9 :
    extractReply (some ⟨some "", some "hi", none⟩) = "hi" ∧
    claimExtractReply (some ⟨some "", some "hi", none⟩) = "" ∧
    ("hi" : String) ≠ "" := by
  decide

/-- Claim C9 as amended: the extracted reply is the value under the first
of the keys `reply`, `output`, `message` that is present with a non-empty
value (checked in that priority order), and the empty string when none
qualifies. -/
theorem extract_reply_amended_c9 (data : Option ResponseData) :
    extractReply data = amendedExtractReply data := by
  rcases data with _ | ⟨r, o, m⟩
  · rfl
  · rcases r with _ | r <;> rcases o with _ | o <;> rcases m with _ | m <;>
      simp [extractReply, amendedExtractReply, firstTruthy, jsTruthy]
